import Mathlib

/-!
Verification development for the free_fleet fleet-manager core.

The definitions below are a shallow embedding of the robot tracking
subsystem (`src/free_fleet/src/agv/RobotInfo.cpp`) and of the manager
admission pipeline declared in
`src/free_fleet/include/free_fleet/manager/Manager.hpp`.

Conventions of the embedding:
* The source computes with IEEE doubles; the embedding idealises them as
  exact rationals.  Distance comparisons that the source performs on
  `sqrt`-valued quantities are carried out on squared quantities, which
  preserves their truth values since both sides are nonnegative.
* The source's `std::optional` and failure-free returns become `Option`.
* Control flow that reaches undefined behavior in the source (an invalid
  iterator dereference, see `track_and_update`) is modelled as `none`.
* A division by zero of the source turns the affected floating-point
  value into NaN; every comparison against a NaN is false.  Where this
  shapes control flow (see `perpSqDist`) the embedding makes the zero
  denominator explicit.
-/

namespace FreeFleet

/-- Planar point, the embedding of `Eigen::Vector2d`. -/
structure Vec2 where
  x : ℚ
  y : ℚ
deriving DecidableEq, Repr

/-- Squared Euclidean distance; the source compares `(a - b).norm()` and
we compare its square against squared thresholds. -/
def sqDist (a b : Vec2) : ℚ :=
  (a.x - b.x) ^ 2 + (a.y - b.y) ^ 2

/-- Directed lane of the navigation graph, referencing the entry and exit
waypoint indices (`rmf_traffic::agv::Graph::Lane`). -/
structure Lane where
  entry : Nat
  exit : Nat
deriving DecidableEq, Repr

instance : Inhabited Lane := ⟨⟨0, 0⟩⟩

/-- Navigation graph: waypoint locations by index and directed lanes by
index.  The map names carried by the real graph are irrelevant to every
operation embedded here. -/
structure Graph where
  waypoints : List Vec2
  lanes : List Lane
deriving DecidableEq, Repr

/-- Location of waypoint `i`.  Out-of-range access is undefined behavior
in the source; the default is never reached under the in-range invariant
maintained by tracking. -/
def Graph.wpLoc (g : Graph) (i : Nat) : Vec2 :=
  g.waypoints.getD i ⟨0, 0⟩

/-- Lane at index `i`, with the same out-of-range convention as
`Graph.wpLoc`. -/
def Graph.laneAt (g : Graph) (i : Nat) : Lane :=
  g.lanes.getD i default

/-- Modelled from the spec: the value of the nearness threshold
`_dist_threshold` (the member initializer lives in `RobotInfo.hpp`, which
is not among the provided sources); the spec fixes `D = 0.5` for the
reference behavior (section 4.1, section 8). -/
def dist_threshold : ℚ := 1 / 2

/-- Embedding of `RobotInfo::_is_near_waypoint`: the waypoint location is
strictly within `_dist_threshold` of the query point. -/
def is_near_waypoint (g : Graph) (w : Nat) (p : Vec2) : Bool :=
  decide (sqDist (g.wpLoc w) p < dist_threshold ^ 2)

/-- Embedding of `RobotInfo::_is_within_lane`: longitudinal containment.
The source projects `p - entry` on the unit entry-to-exit vector and asks
`0 <= s <= length`.  Multiplying through by the (positive) length gives
the equivalent `0 <= dot /\ dot <= length^2`.  A zero-length lane makes
the source's projection NaN, whose comparisons are all false; hence the
explicit `0 < sqLen` conjunct. -/
def is_within_lane (g : Graph) (l : Lane) (p : Vec2) : Bool :=
  let p0 := g.wpLoc l.entry
  let p1 := g.wpLoc l.exit
  let sqLen := sqDist p0 p1
  let dotp := (p.x - p0.x) * (p1.x - p0.x) + (p.y - p0.y) * (p1.y - p0.y)
  decide (0 < sqLen) && decide (0 ≤ dotp) && decide (dotp ≤ sqLen)

/-- Loop of `RobotInfo::_find_nearest_waypoint`: scan waypoints in index
order keeping the strictly closest candidate, so the first of several
equally-near waypoints wins.  `i` is the index of the head of `ws` in the
full waypoint list; `best` carries `(index, squared distance)`. -/
def nearestFrom (p : Vec2) : Nat → List Vec2 → Option (Nat × ℚ) → Option (Nat × ℚ)
  | _, [], best => best
  | i, w :: rest, best =>
    let sd := sqDist p w
    let best2 :=
      match best with
      | none => some (i, sd)
      | some (j, bd) => if sd < bd then some (i, sd) else some (j, bd)
    nearestFrom p (i + 1) rest best2

/-- Embedding of `RobotInfo::_find_nearest_waypoint`.  The source starts
from a null pointer and an infinite distance; `none` stands for that
initial pair, and it survives only when the graph has no waypoints. -/
def find_nearest_waypoint (g : Graph) (p : Vec2) : Option (Nat × ℚ) :=
  nearestFrom p 0 g.waypoints none

/-- Homogeneous line coefficients through entry and exit of a lane, the
cross product `(entry.x, entry.y, 1) x (exit.x, exit.y, 1)` computed in
`RobotInfo::_find_nearest_lane`. -/
def lineCoef (g : Graph) (l : Lane) : ℚ × ℚ × ℚ :=
  let e := g.wpLoc l.entry
  let q := g.wpLoc l.exit
  (e.y - q.y, q.x - e.x, e.x * q.y - e.y * q.x)

/-- Squared perpendicular distance as `_find_nearest_lane` computes it:
the coefficients are first normalised by the homogeneous component
`c`.  When `c = 0` (the supporting line passes through the origin) the
source divides by zero, the distance becomes NaN and the comparison
guarding the running minimum is false; `none` models that NaN. -/
def perpSqDist (g : Graph) (l : Lane) (p : Vec2) : Option ℚ :=
  let co := lineCoef g l
  if co.2.2 = 0 then none
  else
    let a := co.1 / co.2.2
    let b := co.2.1 / co.2.2
    some ((a * p.x + b * p.y + 1) ^ 2 / (a ^ 2 + b ^ 2))

/-- Loop of `RobotInfo::_find_nearest_lane`: lanes failing the
longitudinal containment test are skipped, a NaN distance never beats the
running minimum, and ties keep the earlier index. -/
def nearestLaneFrom (g : Graph) (p : Vec2) : Nat → List Lane → Option (Nat × ℚ) → Option (Nat × ℚ)
  | _, [], best => best
  | i, l :: rest, best =>
    let best2 :=
      if is_within_lane g l p then
        match perpSqDist g l p with
        | none => best
        | some sd =>
          match best with
          | none => some (i, sd)
          | some (j, bd) => if sd < bd then some (i, sd) else some (j, bd)
      else best
    nearestLaneFrom g p (i + 1) rest best2

/-- Embedding of `RobotInfo::_find_nearest_lane`. -/
def find_nearest_lane (g : Graph) (p : Vec2) : Option (Nat × ℚ) :=
  nearestLaneFrom g p 0 g.lanes none

/-- Robot mode variant from `messages/RobotMode.hpp`. -/
inductive RobotMode
  | idle
  | moving
  | paused
  | charging
  | docking
  | emergency
  | fault
deriving DecidableEq, Repr

/-- Location message (`messages/Location.hpp`). -/
structure Location where
  map_name : String
  position : Vec2
  yaw : ℚ
deriving DecidableEq, Repr

/-- Inbound robot state (`messages/RobotState.hpp`).  The tracking source
reads the command id through the field it calls `task_id` and compares it
with the literal `0`, which is the reserved "no command" value. -/
structure RobotState where
  time : ℤ
  name : String
  model : String
  task_id : Nat
  command_completed : Bool
  mode : RobotMode
  battery_percent : ℚ
  location : Location
  target_path_index : Option Nat
deriving DecidableEq, Repr

/-- Kind of a mode request (pause, resume, or dock). -/
inductive ModeKind
  | pause
  | resume
  | dock (dock_name : String)
deriving DecidableEq, Repr

/-- Single point of a navigation path (`Manager::NavigationPoint`). -/
structure NavigationPoint where
  waypoint_index : Nat
  yaw : Option ℚ := none
  wait_until : Option ℤ := none
deriving DecidableEq, Repr

/-- Payload of a request record, the tagged variant behind the
`requests::RequestInfo` class hierarchy. -/
inductive RequestBody
  | modeReq (kind : ModeKind)
  | navReq (path : List NavigationPoint)
  | relocReq (location : Location) (last_visited_waypoint_index : Nat)
deriving DecidableEq, Repr

/-- Request record: command id plus payload. -/
structure RequestInfo where
  id : Nat
  body : RequestBody
deriving DecidableEq, Repr

/-- Tracking state variant of `RobotInfo`. -/
inductive TrackingState
  | onWaypoint
  | onLane
  | towardsWaypoint
  | lost
deriving DecidableEq, Repr

/-- Per-robot aggregate (`agv::RobotInfo`).  `allocated_requests` is the
id-keyed map; lookup takes the first matching key, and insertion conses,
which reproduces `operator[]` overwrite semantics. -/
structure RobotInfo where
  name : String
  model : String
  first_found : ℤ
  last_updated : ℤ
  state : Option RobotState
  graph : Graph
  allocated_requests : List (Nat × RequestInfo)
  tracking_state : TrackingState
  tracking_index : Nat
deriving DecidableEq, Repr

/-- Pair observed by the tracking claims. -/
def trackPair (r : RobotInfo) : TrackingState × Nat :=
  (r.tracking_state, r.tracking_index)

/-- Embedding of `RobotInfo::_track_without_task_id`, the task-free
tracking transition. -/
def track_without_task_id (r : RobotInfo) (s : RobotState) : RobotInfo :=
  let p := s.location.position
  match r.tracking_state with
  | .onWaypoint =>
    if is_near_waypoint r.graph r.tracking_index p then r
    else { r with tracking_state := .lost }
  | .onLane =>
    let lane := r.graph.laneAt r.tracking_index
    if is_near_waypoint r.graph lane.exit p then
      { r with tracking_state := .onWaypoint, tracking_index := lane.exit }
    else if is_within_lane r.graph lane p then r
    else
      match find_nearest_waypoint r.graph p with
      | some (i, sd) =>
        if sd < dist_threshold ^ 2 then
          { r with tracking_state := .onWaypoint, tracking_index := i }
        else { r with tracking_state := .lost }
      | none => { r with tracking_state := .lost }
  | .towardsWaypoint =>
    if is_near_waypoint r.graph r.tracking_index p then
      { r with tracking_state := .onWaypoint }
    else r
  | .lost =>
    match find_nearest_waypoint r.graph p with
    | some (i, sd) =>
      if sd < dist_threshold ^ 2 then
        { r with tracking_state := .onWaypoint, tracking_index := i }
      else r
    | none => r

/-- Embedding of `RobotInfo::_track_and_update`.  `none` marks the one
path on which the source has undefined behavior: when the inbound command
id is nonzero but not among the allocated requests, the source calls
`_track_without_task_id` and then, missing a return, falls through to
`assert(it->second)` and `auto request = it->second` with `it` equal to
the end iterator.  On the task-aware paths the only branch with any
effect is OnWaypoint with an active mode request, which falls back to the
task-free transition; the navigation- and relocalization-aware branches
of the source are unfinished stubs that leave tracking untouched.  Every
successful path ends by storing the inbound state. -/
def track_and_update (r : RobotInfo) (s : RobotState) : Option RobotInfo :=
  if s.task_id = 0 then
    some { track_without_task_id r s with state := some s }
  else
    match r.allocated_requests.lookup s.task_id with
    | none => none
    | some req =>
      match r.tracking_state, req.body with
      | .onWaypoint, .modeReq _ =>
        some { track_without_task_id r s with state := some s }
      | _, _ => some { r with state := some s }

/-- Embedding of `RobotInfo::update_state`: a state whose name does not
match is refused silently, otherwise tracking runs and `last_updated` is
set to `time_now`. -/
def update_state (r : RobotInfo) (s : RobotState) (time_now : ℤ) : Option RobotInfo :=
  if r.name ≠ s.name then some r
  else
    match track_and_update r s with
    | none => none
    | some r2 => some { r2 with last_updated := time_now }

/-- Modelled from the spec: the initial tracking state used by the
bootstrap.  The member initializers of `_tracking_state` live in
`RobotInfo.hpp`, which is not among the provided sources; the spec
(section 4.3.3) starts a new robot at Lost before the first inference. -/
def initial_tracking_state : TrackingState := .lost

/-- Embedding of the `RobotInfo` constructor: record identity and times,
start from the bootstrap tracking state, then run one tracking pass on
the initial state. -/
def RobotInfo.make (s : RobotState) (g : Graph) (time_now : ℤ) : Option RobotInfo :=
  track_and_update
    { name := s.name
      model := s.model
      first_found := time_now
      last_updated := time_now
      state := none
      graph := g
      allocated_requests := []
      tracking_state := initial_tracking_state
      tracking_index := 0 } s

/-- Embedding of `RobotInfo::allocate_task`: store the record under its
own id. -/
def allocate_task (r : RobotInfo) (req : RequestInfo) : RobotInfo :=
  { r with allocated_requests := (req.id, req) :: r.allocated_requests }

/-- Fold `update_state` over a list of `(state, time_now)` observations,
failing as soon as one update does. -/
def runUpdates (r : RobotInfo) : List (RobotState × ℤ) → Option RobotInfo
  | [] => some r
  | (s, t) :: rest =>
    match update_state r s t with
    | none => none
    | some r2 => runUpdates r2 rest

/-- Task-free transition table exactly as the spec writes it (section
4.3.1), as a function of the prior `(tracking_state, tracking_index)`
pair and the reported position.  This is the spec-side definition kept
for comparison against the source-translated `track_without_task_id`;
the table leaves the index unused on the rows producing Lost, so those
rows carry the incoming index through. -/
def specTaskFreeStep (g : Graph) (ts : TrackingState) (ti : Nat) (p : Vec2) :
    TrackingState × Nat :=
  match ts with
  | .onWaypoint =>
    if is_near_waypoint g ti p then (.onWaypoint, ti) else (.lost, ti)
  | .onLane =>
    let l := g.laneAt ti
    if is_near_waypoint g l.exit p then (.onWaypoint, l.exit)
    else if is_within_lane g l p then (.onLane, ti)
    else
      match find_nearest_waypoint g p with
      | some (i, sd) =>
        if sd < dist_threshold ^ 2 then (.onWaypoint, i) else (.lost, ti)
      | none => (.lost, ti)
  | .towardsWaypoint =>
    if is_near_waypoint g ti p then (.onWaypoint, ti) else (.towardsWaypoint, ti)
  | .lost =>
    match find_nearest_waypoint g p with
    | some (i, sd) =>
      if sd < dist_threshold ^ 2 then (.onWaypoint, i) else (.lost, ti)
    | none => (.lost, ti)

/-- Outbound message shapes, one per request kind (section 6 of the
spec; the transport serialises them). -/
inductive OutboundMessage
  | modeMsg (robot : String) (id : Nat) (kind : ModeKind)
  | navMsg (robot : String) (id : Nat) (path : List NavigationPoint)
  | relocMsg (robot : String) (id : Nat) (location : Location) (last_visited : Nat)
deriving DecidableEq, Repr

/-- Modelled from the spec: the Manager coordinator state.  The Manager
implementation (`internal_Manager`) is not among the provided sources —
only `Manager.hpp` declares the API and `test_Manager.cpp` exercises it —
so the registry of robots, the monotonic command-id counter (section 4.4:
"a monotonic counter on the Manager, incremented on every successful
admission", starting so that the first returned id is 1) and the log of
messages handed to the transport are modelled here from sections 4.2,
4.4 and 6. -/
structure ManagerModel where
  graph : Graph
  robots : List (String × RobotInfo)
  current_cmd_id : Nat
  sent : List OutboundMessage
deriving DecidableEq, Repr

/-- Whether a robot of this name is registered. -/
def ManagerModel.hasRobot (m : ManagerModel) (name : String) : Bool :=
  (m.robots.lookup name).isSome

/-- Modelled from the spec: the successful-admission path shared by all
five request methods (section 4.2): allocate the next CommandId, store
the record in the target robot's allocated map, and serialise one message
to the transport. -/
def ManagerModel.admitSend (m : ManagerModel) (name : String) (body : RequestBody)
    (msg : Nat → OutboundMessage) : ManagerModel × Option Nat :=
  let id := m.current_cmd_id + 1
  ({ m with
      current_cmd_id := id
      sent := msg id :: m.sent
      robots := m.robots.map fun nr =>
        if nr.1 = name then (nr.1, allocate_task nr.2 ⟨id, body⟩) else nr },
    some id)

/-- Modelled from the spec: `Manager::request_pause`, admitted iff the
named robot exists (section 4.2). -/
def ManagerModel.request_pause (m : ManagerModel) (name : String) :
    ManagerModel × Option Nat :=
  if m.hasRobot name then
    m.admitSend name (.modeReq .pause) (fun id => .modeMsg name id .pause)
  else (m, none)

/-- Modelled from the spec: `Manager::request_resume`, admitted iff the
named robot exists (section 4.2). -/
def ManagerModel.request_resume (m : ManagerModel) (name : String) :
    ManagerModel × Option Nat :=
  if m.hasRobot name then
    m.admitSend name (.modeReq .resume) (fun id => .modeMsg name id .resume)
  else (m, none)

/-- Modelled from the spec: `Manager::request_dock`, admitted iff the
named robot exists (section 4.2). -/
def ManagerModel.request_dock (m : ManagerModel) (name dock_name : String) :
    ManagerModel × Option Nat :=
  if m.hasRobot name then
    m.admitSend name (.modeReq (.dock dock_name))
      (fun id => .modeMsg name id (.dock dock_name))
  else (m, none)

/-- Modelled from the spec: `Manager::request_relocalization`, admitted
iff the robot exists, the last visited waypoint index is valid, and the
requested location is strictly within the relocalization radius of that
waypoint (section 4.2; the radius is the same value as the nearness
threshold, which is what the reference uses). -/
def ManagerModel.request_relocalization (m : ManagerModel) (name : String)
    (loc : Location) (last_wp : Nat) : ManagerModel × Option Nat :=
  if m.hasRobot name ∧ last_wp < m.graph.waypoints.length ∧
      sqDist loc.position (m.graph.wpLoc last_wp) < dist_threshold ^ 2 then
    m.admitSend name (.relocReq loc last_wp)
      (fun id => .relocMsg name id loc last_wp)
  else (m, none)

/-- Modelled from the spec: `Manager::request_navigation`, admitted iff
the robot exists, the path is non-empty, and every waypoint index in the
path is valid in the graph (section 4.2). -/
def ManagerModel.request_navigation (m : ManagerModel) (name : String)
    (path : List NavigationPoint) : ManagerModel × Option Nat :=
  if m.hasRobot name ∧ path ≠ [] ∧
      ∀ pt ∈ path, pt.waypoint_index < m.graph.waypoints.length then
    m.admitSend name (.navReq path) (fun id => .navMsg name id path)
  else (m, none)

/-- One admission call of the public API, for quantifying over arbitrary
interleavings of request kinds. -/
inductive ManagerCall
  | callPause (name : String)
  | callResume (name : String)
  | callDock (name dock_name : String)
  | callReloc (name : String) (loc : Location) (last_wp : Nat)
  | callNav (name : String) (path : List NavigationPoint)
deriving DecidableEq, Repr

/-- Dispatch one admission call. -/
def applyCall (m : ManagerModel) : ManagerCall → ManagerModel × Option Nat
  | .callPause n => m.request_pause n
  | .callResume n => m.request_resume n
  | .callDock n d => m.request_dock n d
  | .callReloc n loc wp => m.request_relocalization n loc wp
  | .callNav n path => m.request_navigation n path

/-- Run a sequence of admission calls, collecting every returned
optional id in call order. -/
def runCalls (m : ManagerModel) : List ManagerCall → ManagerModel × List (Option Nat)
  | [] => (m, [])
  | c :: cs =>
    let step := applyCall m c
    let rest := runCalls step.1 cs
    (rest.1, step.2 :: rest.2)

/-- Modelled from the spec: a freshly constructed manager has issued no
command yet (the first returned CommandId is 1) and has sent nothing. -/
def ManagerModel.init (g : Graph) (robots : List (String × RobotInfo)) : ManagerModel :=
  ⟨g, robots, 0, []⟩

/-! ### Concrete fixtures

The five-waypoint cross graph of `test_Manager.cpp` (waypoint 0 at the
origin, spokes at distance 10, lanes between the origin and each spoke in
both directions) with the extra isolated waypoint at `(100, 100)`. -/

/-- The test graph of `test_Manager.cpp` (second scenario). -/
def crossGraph : Graph :=
  { waypoints := [⟨0, 0⟩, ⟨10, 0⟩, ⟨-10, 0⟩, ⟨0, 10⟩, ⟨0, -10⟩, ⟨100, 100⟩]
    lanes := [⟨0, 1⟩, ⟨1, 0⟩, ⟨0, 2⟩, ⟨2, 0⟩, ⟨0, 3⟩, ⟨3, 0⟩, ⟨0, 4⟩, ⟨4, 0⟩] }

/-- A robot state as the tests build them: fixed identity, idle, full
battery, position and command fields as given. -/
def mkState (task : Nat) (pos : Vec2) (tpi : Option Nat) : RobotState :=
  { time := 0
    name := "test_robot"
    model := "test_model"
    task_id := task
    command_completed := false
    mode := .idle
    battery_percent := 1
    location := { map_name := "test_level", position := pos, yaw := 0 }
    target_path_index := tpi }

/-- A robot tracked on waypoint 0 of the cross graph with no allocated
request. -/
def baseRobot : RobotInfo :=
  { name := "test_robot"
    model := "test_model"
    first_found := 0
    last_updated := 0
    state := some (mkState 0 ⟨0, 0⟩ none)
    graph := crossGraph
    allocated_requests := []
    tracking_state := .onWaypoint
    tracking_index := 0 }

/-- Robot of the C2 scenario: an active Navigation request with command
id 1 and path `[0, 1]` has been allocated. -/
def c2robot : RobotInfo :=
  { baseRobot with
      allocated_requests := [(1, ⟨1, .navReq [⟨0, none, none⟩, ⟨1, none, none⟩]⟩)] }

/-- Inbound state of the C2 scenario: command id 1 in progress, position
`(5, 0)`, heading for path index 1. -/
def c2state : RobotState := mkState 1 ⟨5, 0⟩ (some 1)

/-- Two-waypoint graph whose waypoints are `0.6` apart, closer than twice
the nearness threshold. -/
def twinGraph : Graph :=
  { waypoints := [⟨0, 0⟩, ⟨3 / 5, 0⟩], lanes := [] }

/-- Robot tracked on waypoint 0 of `twinGraph`. -/
def twinRobot : RobotInfo :=
  { baseRobot with graph := twinGraph }

/-- Task-free state at `(0.55, 0)`: at distance `0.55` from waypoint 0
but only `0.05` from waypoint 1. -/
def twinState : RobotState := mkState 0 ⟨11 / 20, 0⟩ none

/-- Graph with one lane from `(1, 0)` to `(3, 0)`: its supporting line is
the x-axis, which passes through the origin, so the homogeneous
coefficient of its line equation is zero. -/
def originLaneGraph : Graph :=
  { waypoints := [⟨1, 0⟩, ⟨3, 0⟩], lanes := [⟨0, 1⟩] }

/-- Graph with one lane from `(1, 0)` to `(1, 2)`: its supporting line
`x = 1` misses the origin, so its line equation is well defined. -/
def offsetLaneGraph : Graph :=
  { waypoints := [⟨1, 0⟩, ⟨1, 2⟩], lanes := [⟨0, 1⟩] }

/-! ### Structural lemmas about the tracking functions -/

theorem sqDist_comm (a b : Vec2) : sqDist a b = sqDist b a := by
  unfold sqDist
  ring

/-- The task-free transition touches only the tracking fields. -/
theorem track_without_fields (r : RobotInfo) (s : RobotState) :
    ∃ ts ti, track_without_task_id r s =
      { r with tracking_state := ts, tracking_index := ti } := by
  unfold track_without_task_id
  dsimp only
  repeat' split
  all_goals exact ⟨_, _, rfl⟩

/-- A successful tracking pass touches only the tracking fields and
stores the inbound state. -/
theorem track_and_update_fields (r : RobotInfo) (s : RobotState) (r2 : RobotInfo)
    (h : track_and_update r s = some r2) :
    ∃ ts ti, r2 =
      { r with tracking_state := ts, tracking_index := ti, state := some s } := by
  unfold track_and_update at h
  split at h
  · simp only [Option.some.injEq] at h
    obtain ⟨ts, ti, hw⟩ := track_without_fields r s
    exact ⟨ts, ti, by rw [← h, hw]⟩
  · split at h
    · exact absurd h (by simp)
    · split at h
      · simp only [Option.some.injEq] at h
        obtain ⟨ts, ti, hw⟩ := track_without_fields r s
        exact ⟨ts, ti, by rw [← h, hw]⟩
      · simp only [Option.some.injEq] at h
        exact ⟨r.tracking_state, r.tracking_index, by rw [← h]⟩

/-- Every successful tracking pass ends by storing the inbound state. -/
theorem track_and_update_state_eq (r : RobotInfo) (s : RobotState) (r2 : RobotInfo)
    (h : track_and_update r s = some r2) : r2.state = some s := by
  obtain ⟨ts, ti, h2⟩ := track_and_update_fields r s r2 h
  rw [h2]

/-- Any property of index-distance pairs that holds for the incoming
best candidate and for every scanned entry holds for the result of the
nearest-waypoint scan. -/
theorem nearestFrom_prop (p : Vec2) (P : Nat → ℚ → Prop) :
    ∀ (ws : List Vec2) (i0 : Nat) (best : Option (Nat × ℚ)),
      (∀ j d, best = some (j, d) → P j d) →
      (∀ k (h : k < ws.length), P (i0 + k) (sqDist p (ws.get ⟨k, h⟩))) →
      ∀ j d, nearestFrom p i0 ws best = some (j, d) → P j d := by
  intro ws
  induction ws with
  | nil => intro i0 best hbest _ j d h; exact hbest j d h
  | cons w rest ih =>
    intro i0 best hbest helem j d h
    have hw : P i0 (sqDist p w) := by
      have := helem 0 (by simp)
      simpa using this
    have helem2 : ∀ k (hk : k < rest.length),
        P (i0 + 1 + k) (sqDist p (rest.get ⟨k, hk⟩)) := by
      intro k hk
      have := helem (k + 1) (by simpa using Nat.succ_lt_succ hk)
      simpa [Nat.add_assoc, Nat.add_comm 1 k, Nat.add_left_comm] using this
    have hnew : ∀ j' d', some (i0, sqDist p w) = some (j', d') → P j' d' := by
      intro j' d' hb2
      simp only [Option.some.injEq, Prod.mk.injEq] at hb2
      obtain ⟨h1, h2⟩ := hb2
      rw [← h1, ← h2]; exact hw
    cases best with
    | none =>
      refine ih (i0 + 1) (some (i0, sqDist p w)) hnew helem2 j d ?_
      simpa only [nearestFrom] using h
    | some jd =>
      obtain ⟨j0, d0⟩ := jd
      by_cases hlt : sqDist p w < d0
      · refine ih (i0 + 1) (some (i0, sqDist p w)) hnew helem2 j d ?_
        have h2 := h
        simp only [nearestFrom] at h2
        rw [if_pos hlt] at h2
        exact h2
      · refine ih (i0 + 1) (some (j0, d0)) (fun j' d' hb2 => hbest j' d' hb2) helem2 j d ?_
        have h2 := h
        simp only [nearestFrom] at h2
        rw [if_neg hlt] at h2
        exact h2

/-- The nearest-waypoint search returns an in-range index together with
the squared distance from the query point to that waypoint. -/
theorem find_nearest_waypoint_spec (g : Graph) (p : Vec2) (i : Nat) (d : ℚ)
    (h : find_nearest_waypoint g p = some (i, d)) :
    i < g.waypoints.length ∧ d = sqDist p (g.wpLoc i) := by
  refine nearestFrom_prop p
    (fun j e => j < g.waypoints.length ∧ e = sqDist p (g.wpLoc j))
    g.waypoints 0 none (by simp) ?_ i d h
  intro k hk
  refine ⟨by simpa using hk, ?_⟩
  have : g.wpLoc (0 + k) = g.waypoints.get ⟨k, hk⟩ := by
    simp [Graph.wpLoc, List.getD_eq_getElem?_getD, List.getElem?_eq_getElem hk]
  rw [this]

/-- The source's task-free transition computes, on the tracking pair,
exactly the spec's task-free transition table. -/
theorem trackPair_track_without (r : RobotInfo) (s : RobotState) :
    trackPair (track_without_task_id r s) =
      specTaskFreeStep r.graph r.tracking_state r.tracking_index
        s.location.position := by
  obtain ⟨nm, mo, ff, lu, st, g, al, ts, ti⟩ := r
  cases ts <;>
    simp only [track_without_task_id, specTaskFreeStep, trackPair] <;>
    (repeat' split) <;> rfl

/-!
### C1 — task-free tracking follows the transition table
-/

/-- C1 (amended): for every robot whose inbound state carries no command
id (the reserved zero value), the tracking pass succeeds and the
resulting `(tracking_state, tracking_index)` pair follows the spec's
task-free transition table exactly.  The original claim also covered
unknown nonzero command ids; that half fails on the source (see the
counterexample: the unknown-id path never completes a tracking update). -/
theorem taskfree_update_follows_table (r : RobotInfo) (s : RobotState)
    (h : s.task_id = 0) :
    (track_and_update r s).map trackPair =
      some (specTaskFreeStep r.graph r.tracking_state r.tracking_index
        s.location.position) := by
  unfold track_and_update
  rw [if_pos h]
  simpa using trackPair_track_without r s

/-- Witness for C1 at a concrete input: the task-free robot on waypoint
0 of the cross graph reporting from `(5, 0)`. -/
theorem taskfree_update_follows_table_witness :
    (track_and_update baseRobot (mkState 0 ⟨5, 0⟩ none)).map trackPair =
      some (specTaskFreeStep baseRobot.graph baseRobot.tracking_state
        baseRobot.tracking_index (mkState 0 ⟨5, 0⟩ none).location.position) :=
  taskfree_update_follows_table baseRobot (mkState 0 ⟨5, 0⟩ none) rfl

/-- C1 counterexample: with an unknown nonzero command id (5, never
allocated to this robot) the tracking pass produces no updated pair at
all — the source falls through into an invalid-iterator dereference — so
the update does not follow the task-free transition table. -/
theorem unknown_id_no_taskfree_update_cex :
    (track_and_update baseRobot (mkState 5 ⟨0, 0⟩ none)).map trackPair ≠
      some (specTaskFreeStep baseRobot.graph baseRobot.tracking_state
        baseRobot.tracking_index (mkState 5 ⟨0, 0⟩ none).location.position) := by
  have hnone : track_and_update baseRobot (mkState 5 ⟨0, 0⟩ none) = none := rfl
  rw [hnone]
  simp

/-!
### C2 — the navigation-aware inference is an unimplemented stub
-/

/-- C2 (code evaluation at the spec's scenario 4): the robot on waypoint
0 with an active Navigation request for path `[0, 1]`, reporting from
`(5, 0)` with target path index 1, stays `OnWaypoint(0)`.  The claim
(and the spec) requires `OnLane(lane 0 -> 1)`; the source's
navigation-aware branch contains only a comment, so tracking is left
untouched. -/
theorem nav_scenario_keeps_on_waypoint :
    (track_and_update c2robot c2state).map trackPair =
      some (TrackingState.onWaypoint, 0) := rfl

/-!
### C3 — unknown command id is fatal, not task-free
-/

/-- C3 (code evaluation at the failing input): an inbound state whose
command id 7 is not among the allocated requests makes `update_state`
fail instead of completing task-free processing: the source calls
`_track_without_task_id` but, missing a return, goes on to dereference
the end iterator.  The repo's own callback test constructs a RobotInfo
from a state with command id 1 and no allocated request, which walks this
same path. -/
theorem unknown_id_update_is_fatal :
    update_state baseRobot (mkState 7 ⟨0, 0⟩ none) 1 = none := rfl

/-!
### C4/C5 — command-id allocation across arbitrary call sequences
-/

/-- Ids returned by the successful calls of a sequence, in call order. -/
def successIds : List (Option Nat) → List Nat
  | [] => []
  | some i :: rest => i :: successIds rest
  | none :: rest => successIds rest

/-- Dichotomy of one admission call: either it fails and returns the
manager unchanged with `none`, or it succeeds, returns the incremented
counter and leaves the counter at that value. -/
theorem applyCall_spec (m : ManagerModel) (c : ManagerCall) :
    applyCall m c = (m, none) ∨
      ((applyCall m c).2 = some (m.current_cmd_id + 1) ∧
        (applyCall m c).1.current_cmd_id = m.current_cmd_id + 1) := by
  cases c <;>
    simp only [applyCall, ManagerModel.request_pause, ManagerModel.request_resume,
      ManagerModel.request_dock, ManagerModel.request_relocalization,
      ManagerModel.request_navigation, ManagerModel.admitSend] <;>
    split <;> simp

/-- Successful ids of a run form the consecutive range starting right
after the initial counter value, and the counter advances by exactly the
number of successes. -/
theorem runCalls_ids (calls : List ManagerCall) :
    ∀ m : ManagerModel,
      successIds (runCalls m calls).2 =
        List.range' (m.current_cmd_id + 1)
          (successIds (runCalls m calls).2).length ∧
      (runCalls m calls).1.current_cmd_id =
        m.current_cmd_id + (successIds (runCalls m calls).2).length := by
  induction calls with
  | nil => intro m; simp [runCalls, successIds]
  | cons c cs ih =>
    intro m
    rcases applyCall_spec m c with hfail | ⟨hs2, hs1⟩
    · simpa [runCalls, hfail, successIds] using ih m
    · have ihm := ih (applyCall m c).1
      simp only [runCalls, hs2, successIds, hs1] at ihm ⊢
      obtain ⟨ih1, ih2⟩ := ihm
      constructor
      · rw [List.length_cons, List.range'_succ]
        exact congrArg _ (by simpa [Nat.add_assoc] using ih1)
      · rw [ih2, List.length_cons]
        omega


/-- C4: over any sequence of admission calls on one manager, the
CommandIds returned by the successful calls are exactly `1, 2, 3, ...` in
call order — strictly increasing from 1 with no gaps, whatever the
interleaving of request kinds. -/
theorem command_ids_consecutive_from_one (g : Graph)
    (robots : List (String × RobotInfo)) (calls : List ManagerCall) :
    successIds (runCalls (ManagerModel.init g robots) calls).2 =
      List.range' 1
        (successIds (runCalls (ManagerModel.init g robots) calls).2).length := by
  simpa [ManagerModel.init] using (runCalls_ids calls (ManagerModel.init g robots)).1

/-- C5: a request call whose admission fails returns `none` and leaves
the manager completely unchanged — same command-id counter (so the next
success returns the id it would have returned anyway), same transport
log, same robot registry. -/
theorem failed_admission_leaves_manager_unchanged (m : ManagerModel)
    (c : ManagerCall) (h : (applyCall m c).2 = none) : (applyCall m c).1 = m := by
  rcases applyCall_spec m c with hfail | ⟨hs2, _⟩
  · rw [hfail]
  · rw [hs2] at h
    exact absurd h (by simp)

/-- Witness for C5: a pause request for an unregistered robot on an
empty manager fails and changes nothing. -/
theorem failed_admission_witness :
    (applyCall (ManagerModel.init crossGraph []) (ManagerCall.callPause "x")).2 =
      none ∧
    (applyCall (ManagerModel.init crossGraph []) (ManagerCall.callPause "x")).1 =
      ManagerModel.init crossGraph [] :=
  ⟨rfl, failed_admission_leaves_manager_unchanged _ _ rfl⟩

/-- C6: a relocalization request is admitted iff the robot exists, the
last-visited waypoint index is valid in the graph, and the requested
location is strictly within the relocalization radius of that waypoint
(squared comparison; strictness means a request at distance exactly
`D_reloc` is rejected). -/
theorem relocalization_admission_iff (m : ManagerModel) (name : String)
    (loc : Location) (last_wp : Nat) :
    (m.request_relocalization name loc last_wp).2.isSome ↔
      (m.hasRobot name = true ∧ last_wp < m.graph.waypoints.length ∧
        sqDist loc.position (m.graph.wpLoc last_wp) < dist_threshold ^ 2) := by
  unfold ManagerModel.request_relocalization ManagerModel.admitSend
  split <;> simp_all

/-!
### C7 — RobotInfo invariants
-/

/-- Well-formedness of a navigation graph: every lane references valid
waypoint indices.  (The real graph type cannot be built otherwise.) -/
def Graph.wellFormed (g : Graph) : Prop :=
  ∀ l ∈ g.lanes, l.entry < g.waypoints.length ∧ l.exit < g.waypoints.length

/-- In-range tracking indices, relative to the kind of tracking state. -/
def goodIndices (r : RobotInfo) : Prop :=
  ((r.tracking_state = .onWaypoint ∨ r.tracking_state = .towardsWaypoint) →
    r.tracking_index < r.graph.waypoints.length) ∧
  (r.tracking_state = .onLane → r.tracking_index < r.graph.lanes.length)

/-- The task-free transition keeps tracking indices in range. -/
theorem goodIndices_track_without (r : RobotInfo) (s : RobotState)
    (hwf : r.graph.wellFormed) (hg : goodIndices r) :
    goodIndices (track_without_task_id r s) := by
  obtain ⟨nm, mo, ff, lu, st, g, al, ts, ti⟩ := r
  simp only [goodIndices] at hg ⊢
  cases ts with
  | onWaypoint =>
    simp only [track_without_task_id]
    split
    · exact hg
    · simp
  | onLane =>
    have hti : ti < g.lanes.length := hg.2 rfl
    have hmem : g.laneAt ti ∈ g.lanes := by
      rw [Graph.laneAt, List.getD_eq_getElem?_getD, List.getElem?_eq_getElem hti]
      exact List.getElem_mem hti
    simp only [track_without_task_id]
    split
    · exact ⟨fun _ => (hwf _ hmem).2, by simp⟩
    · split
      · exact hg
      · split
        · split
          · rename_i i sd hfind _
            exact ⟨fun _ => (find_nearest_waypoint_spec g _ i sd hfind).1, by simp⟩
          · simp
        · simp
  | towardsWaypoint =>
    simp only [track_without_task_id]
    split
    · exact ⟨fun _ => hg.1 (Or.inr rfl), by simp⟩
    · exact hg
  | lost =>
    simp only [track_without_task_id]
    split
    · split
      · rename_i i sd hfind _
        exact ⟨fun _ => (find_nearest_waypoint_spec g _ i sd hfind).1, by simp⟩
      · exact hg
    · exact hg

/-- A successful tracking pass keeps tracking indices in range. -/
theorem goodIndices_track_and_update (r : RobotInfo) (s : RobotState)
    (r2 : RobotInfo) (hwf : r.graph.wellFormed) (hg : goodIndices r)
    (h : track_and_update r s = some r2) : goodIndices r2 := by
  unfold track_and_update at h
  split at h
  · simp only [Option.some.injEq] at h
    subst h
    exact goodIndices_track_without r s hwf hg
  · split at h
    · exact absurd h (by simp)
    · split at h
      · simp only [Option.some.injEq] at h
        subst h
        exact goodIndices_track_without r s hwf hg
      · simp only [Option.some.injEq] at h
        subst h
        exact hg

/-- Invariant carried through C7's induction: fixed graph, fixed
first-found time that bounds the last-updated time, in-range indices. -/
def trackedInv (g : Graph) (t0 : ℤ) (r : RobotInfo) : Prop :=
  r.graph = g ∧ r.first_found = t0 ∧ t0 ≤ r.last_updated ∧ goodIndices r

/-- One `update_state` step preserves the C7 invariant as long as the
wall clock has not moved backwards past the construction time. -/
theorem trackedInv_update (g : Graph) (t0 : ℤ) (r r2 : RobotInfo)
    (s : RobotState) (t : ℤ) (hwf : g.wellFormed) (hI : trackedInv g t0 r)
    (ht : t0 ≤ t) (h : update_state r s t = some r2) : trackedInv g t0 r2 := by
  obtain ⟨hga, hff, hlu, hgi⟩ := hI
  unfold update_state at h
  split at h
  · simp only [Option.some.injEq] at h
    subst h
    exact ⟨hga, hff, hlu, hgi⟩
  · split at h
    · exact absurd h (by simp)
    · rename_i r' htr
      simp only [Option.some.injEq] at h
      subst h
      obtain ⟨ts, ti, hr'⟩ := track_and_update_fields r s r' htr
      have hgi' : goodIndices r' :=
        goodIndices_track_and_update r s r' (by rw [hga]; exact hwf) hgi htr
      refine ⟨?_, ?_, by simpa using ht, ?_⟩
      · show r'.graph = g
        rw [hr']; exact hga
      · show r'.first_found = t0
        rw [hr']; exact hff
      · show goodIndices { r' with last_updated := t }
        exact hgi'

/-- C7: after construction and any successful sequence of `update_state`
calls whose times do not precede the construction time, the robot's
`last_updated` is at least `first_found`, and the tracking index is in
range for the kind of tracking state (waypoint index for OnWaypoint and
TowardsWaypoint, lane index for OnLane). -/
theorem robot_info_invariants (g : Graph) (s0 : RobotState) (t0 : ℤ)
    (us : List (RobotState × ℤ)) (r0 r : RobotInfo)
    (hwf : g.wellFormed)
    (hmk : RobotInfo.make s0 g t0 = some r0)
    (hrun : runUpdates r0 us = some r)
    (hts : ∀ u ∈ us, t0 ≤ u.2) :
    r.first_found ≤ r.last_updated ∧
      ((r.tracking_state = .onWaypoint ∨ r.tracking_state = .towardsWaypoint) →
        r.tracking_index < r.graph.waypoints.length) ∧
      (r.tracking_state = .onLane → r.tracking_index < r.graph.lanes.length) := by
  have hI0 : trackedInv g t0 r0 := by
    unfold RobotInfo.make at hmk
    have hgi : goodIndices r0 :=
      goodIndices_track_and_update _ s0 r0 hwf
        (by simp [goodIndices, initial_tracking_state]) hmk
    obtain ⟨ts, ti, hr0⟩ := track_and_update_fields _ s0 r0 hmk
    refine ⟨?_, ?_, ?_, hgi⟩
    · rw [hr0]
    · rw [hr0]
    · rw [hr0]
  clear hmk
  induction us generalizing r0 with
  | nil =>
    simp only [runUpdates, Option.some.injEq] at hrun
    subst hrun
    obtain ⟨hga, hff, hlu, hgi⟩ := hI0
    exact ⟨by rw [hff]; exact hlu, hgi.1, hgi.2⟩
  | cons u rest ih =>
    obtain ⟨s1, t1⟩ := u
    simp only [runUpdates] at hrun
    split at hrun
    · exact absurd hrun (by simp)
    · rename_i r1 hstep
      exact ih r1 hrun
        (fun v hv => hts v (List.mem_cons_of_mem _ hv))
        (trackedInv_update g t0 r0 r1 s1 t1 hwf hI0
          (hts (s1, t1) (List.mem_cons_self _ _)) hstep)

/-- Witness for C7: constructing from the task-free origin state on the
cross graph yields exactly `baseRobot`, which satisfies the invariants
(empty update sequence). -/
theorem robot_info_invariants_witness :
    crossGraph.wellFormed ∧
    RobotInfo.make (mkState 0 ⟨0, 0⟩ none) crossGraph 0 = some baseRobot ∧
    (baseRobot.first_found ≤ baseRobot.last_updated ∧
      ((baseRobot.tracking_state = .onWaypoint ∨
          baseRobot.tracking_state = .towardsWaypoint) →
        baseRobot.tracking_index < baseRobot.graph.waypoints.length) ∧
      (baseRobot.tracking_state = .onLane →
        baseRobot.tracking_index < baseRobot.graph.lanes.length)) := by
  have hwf : crossGraph.wellFormed := by
    unfold Graph.wellFormed crossGraph
    decide
  have hmk : RobotInfo.make (mkState 0 ⟨0, 0⟩ none) crossGraph 0 = some baseRobot := by
    norm_num [RobotInfo.make, track_and_update, track_without_task_id,
      initial_tracking_state, mkState, baseRobot, crossGraph,
      find_nearest_waypoint, nearestFrom, sqDist, dist_threshold]
  exact ⟨hwf, hmk,
    robot_info_invariants crossGraph (mkState 0 ⟨0, 0⟩ none) 0 [] baseRobot
      baseRobot hwf hmk rfl (by simp)⟩

/-!
### C8 — idempotence of tracking on repeated identical states
-/

/-- A nearest-waypoint hit strictly under the threshold makes the
nearness test at that index succeed. -/
theorem near_of_nearest (g : Graph) (p : Vec2) (i : Nat) (d : ℚ)
    (hf : find_nearest_waypoint g p = some (i, d))
    (hd : d < dist_threshold ^ 2) : is_near_waypoint g i p = true := by
  have hspec := (find_nearest_waypoint_spec g p i d hf).2
  unfold is_near_waypoint
  rw [sqDist_comm, ← hspec]
  simpa using hd

/-- The spec's task-free table is idempotent except on the one
Lost-with-a-waypoint-in-reach configuration. -/
theorem specStep_idem (g : Graph) (ts : TrackingState) (ti : Nat) (p : Vec2)
    (hx : (specTaskFreeStep g ts ti p).1 = .lost →
      ∀ i d, find_nearest_waypoint g p = some (i, d) →
        ¬ d < dist_threshold ^ 2) :
    specTaskFreeStep g (specTaskFreeStep g ts ti p).1
        (specTaskFreeStep g ts ti p).2 p =
      specTaskFreeStep g ts ti p := by
  cases ts with
  | onWaypoint =>
    by_cases hnear : is_near_waypoint g ti p = true
    · simp [specTaskFreeStep, hnear]
    · have hstep : specTaskFreeStep g .onWaypoint ti p = (.lost, ti) := by
        simp [specTaskFreeStep, hnear]
      rw [hstep]
      simp only [specTaskFreeStep]
      cases hfind : find_nearest_waypoint g p with
      | none => rfl
      | some jd =>
        obtain ⟨i, d⟩ := jd
        have hnd := hx (by rw [hstep]) i d hfind
        simp [hnd]
  | onLane =>
    by_cases hexit : is_near_waypoint g (g.laneAt ti).exit p = true
    · simp [specTaskFreeStep, hexit]
    · by_cases hwithin : is_within_lane g (g.laneAt ti) p = true
      · simp [specTaskFreeStep, hexit, hwithin]
      · cases hfind : find_nearest_waypoint g p with
        | none => simp [specTaskFreeStep, hexit, hwithin, hfind]
        | some jd =>
          obtain ⟨i, d⟩ := jd
          by_cases hd : d < dist_threshold ^ 2
          · have hnear := near_of_nearest g p i d hfind hd
            simp [specTaskFreeStep, hexit, hwithin, hfind, hd, hnear]
          · simp [specTaskFreeStep, hexit, hwithin, hfind, hd]
  | towardsWaypoint =>
    by_cases hnear : is_near_waypoint g ti p = true
    · simp [specTaskFreeStep, hnear]
    · simp [specTaskFreeStep, hnear]
  | lost =>
    cases hfind : find_nearest_waypoint g p with
    | none => simp [specTaskFreeStep, hfind]
    | some jd =>
      obtain ⟨i, d⟩ := jd
      by_cases hd : d < dist_threshold ^ 2
      · have hnear := near_of_nearest g p i d hfind hd
        simp [specTaskFreeStep, hfind, hd, hnear]
      · simp [specTaskFreeStep, hfind, hd]

/-- The task-free transition ignores `last_updated`. -/
theorem track_without_lu_congr (r : RobotInfo) (s : RobotState) (t : ℤ) :
    track_without_task_id { r with last_updated := t } s =
      { track_without_task_id r s with last_updated := t } := by
  unfold track_without_task_id
  dsimp only
  repeat' split
  all_goals rfl

/-- The tracking pass ignores `last_updated`. -/
theorem track_and_update_lu_congr (r : RobotInfo) (s : RobotState) (t : ℤ) :
    track_and_update { r with last_updated := t } s =
      (track_and_update r s).map fun x => { x with last_updated := t } := by
  unfold track_and_update
  dsimp only
  split
  · rw [track_without_lu_congr]
    rfl
  · split
    · rfl
    · split
      · rw [track_without_lu_congr]
        rfl
      · rfl

/-- Idempotence of the tracking pass, excluding the re-acquisition
configuration: a second pass on the same state moves the tracking pair
only when the first pass left the robot Lost on a task-free state while
some waypoint lies strictly within the threshold. -/
theorem track_and_update_idem (r r1 r2 : RobotInfo) (s : RobotState)
    (h1 : track_and_update r s = some r1)
    (h2 : track_and_update r1 s = some r2)
    (hx : ¬ (s.task_id = 0 ∧ r1.tracking_state = .lost ∧
      ∃ i d, find_nearest_waypoint r1.graph s.location.position = some (i, d) ∧
        d < dist_threshold ^ 2)) :
    trackPair r2 = trackPair r1 := by
  obtain ⟨ts1, ti1, hr1⟩ := track_and_update_fields r s r1 h1
  have hg1 : r1.graph = r.graph := by rw [hr1]
  have halloc : r1.allocated_requests = r.allocated_requests := by rw [hr1]
  by_cases htask : s.task_id = 0
  · unfold track_and_update at h1 h2
    rw [if_pos htask] at h1 h2
    simp only [Option.some.injEq] at h1 h2
    have e1 : trackPair r1 =
        specTaskFreeStep r.graph r.tracking_state r.tracking_index
          s.location.position := by
      rw [← h1]
      exact trackPair_track_without r s
    have e2 : trackPair r2 =
        specTaskFreeStep r1.graph r1.tracking_state r1.tracking_index
          s.location.position := by
      rw [← h2]
      exact trackPair_track_without r1 s
    have hts1 : r1.tracking_state =
        (specTaskFreeStep r.graph r.tracking_state r.tracking_index
          s.location.position).1 := by
      rw [← e1]; rfl
    have hti1 : r1.tracking_index =
        (specTaskFreeStep r.graph r.tracking_state r.tracking_index
          s.location.position).2 := by
      rw [← e1]; rfl
    rw [e2, e1, hg1, hts1, hti1]
    refine specStep_idem r.graph r.tracking_state r.tracking_index
      s.location.position ?_
    intro hlost i d hfind hd
    exact hx ⟨htask, by rw [hts1]; exact hlost,
      i, d, by rw [hg1]; exact hfind, hd⟩
  · unfold track_and_update at h1 h2
    rw [if_neg htask] at h1 h2
    rw [halloc] at h2
    split at h1
    · exact absurd h1 (by simp)
    · rename_i req hlook
      split at h2
      · rename_i hlook2
        rw [hlook] at hlook2
        exact absurd hlook2 (by simp)
      · rename_i req2 hlook2
        rw [hlook] at hlook2
        simp only [Option.some.injEq] at hlook2
        subst hlook2
        split at h1
        · rename_i kind hts2 hbody
          simp only [Option.some.injEq] at h1
          split at h2
          · rename_i kind2 hts1 hbody2
            by_cases hnear : is_near_waypoint r.graph r.tracking_index
                s.location.position = true
            · have htw : track_without_task_id r s = r := by
                unfold track_without_task_id
                simp only [hts2]
                rw [if_pos hnear]
              rw [htw] at h1
              have hti1 : r1.tracking_index = r.tracking_index := by rw [← h1]
              have htw1 : track_without_task_id r1 s = r1 := by
                unfold track_without_task_id
                simp only [hts1]
                rw [if_pos (by rw [hg1, hti1]; exact hnear)]
              rw [htw1] at h2
              simp only [Option.some.injEq] at h2
              rw [← h2]
              rfl
            · have htw : track_without_task_id r s =
                  { r with tracking_state := .lost } := by
                unfold track_without_task_id
                simp only [hts2]
                rw [if_neg hnear]
              rw [htw] at h1
              have hlost : r1.tracking_state = .lost := by rw [← h1]
              rw [hts1] at hlost
              exact absurd hlost (by simp)
          · simp only [Option.some.injEq] at h2
            rw [← h2]
            rfl
        · rename_i u v hno
          simp only [Option.some.injEq] at h1
          have hts1r : r1.tracking_state = r.tracking_state := by rw [← h1]
          split at h2
          · rename_i kind2 hts1 hbody2
            exact False.elim (hno kind2 (by rw [← hts1r]; exact hts1) hbody2)
          · simp only [Option.some.injEq] at h2
            rw [← h2]
            rfl

/-- C8 (amended): applying `update_state` twice with one and the same
state yields the same `(tracking_state, tracking_index)` as applying it
once, except in the re-acquisition configuration the counterexample
exhibits: a task-free state whose first application leaves the robot
Lost while some waypoint lies strictly within the nearness threshold of
the reported position — there the second application snaps to
`OnWaypoint(nearest)` instead. -/
theorem tracking_idempotent_unless_reacquired (r r1 r2 : RobotInfo)
    (s : RobotState) (t1 t2 : ℤ)
    (h1 : update_state r s t1 = some r1)
    (h2 : update_state r1 s t2 = some r2)
    (hx : ¬ (s.task_id = 0 ∧ r1.tracking_state = .lost ∧
      ∃ i d, find_nearest_waypoint r1.graph s.location.position = some (i, d) ∧
        d < dist_threshold ^ 2)) :
    trackPair r2 = trackPair r1 := by
  unfold update_state at h1 h2
  by_cases hname : r.name ≠ s.name
  · rw [if_pos hname] at h1
    simp only [Option.some.injEq] at h1
    subst h1
    rw [if_pos hname] at h2
    simp only [Option.some.injEq] at h2
    subst h2
    rfl
  · rw [if_neg hname] at h1
    split at h1
    · exact absurd h1 (by simp)
    · rename_i r1p htr1
      simp only [Option.some.injEq] at h1
      have hn1 : r1.name = r.name := by
        obtain ⟨ts0, ti0, hfields⟩ := track_and_update_fields r s r1p htr1
        rw [← h1, hfields]
      have hname1 : ¬ r1.name ≠ s.name := by
        rw [hn1]; exact hname
      rw [if_neg hname1] at h2
      split at h2
      · exact absurd h2 (by simp)
      · rename_i r2p htr2
        simp only [Option.some.injEq] at h2
        rw [← h1, track_and_update_lu_congr, Option.map_eq_some'] at htr2
        obtain ⟨r2q, htr2q, hr2p⟩ := htr2
        have hx2 : ¬ (s.task_id = 0 ∧ r1p.tracking_state = .lost ∧
            ∃ i d, find_nearest_waypoint r1p.graph s.location.position =
              some (i, d) ∧ d < dist_threshold ^ 2) := by
          intro hcontra
          apply hx
          rw [← h1]
          exact hcontra
        have hcore := track_and_update_idem r r1p r2q s htr1 htr2q hx2
        rw [← h2, ← hr2p, ← h1]
        exact hcore

/-- First update of the C8 counterexample: the robot has diverged from
waypoint 0 and goes Lost. -/
def twinLost : RobotInfo :=
  { twinRobot with
      tracking_state := .lost
      state := some twinState
      last_updated := 1 }

/-- C8 counterexample: on `twinGraph` (two waypoints `0.6` apart), the
robot tracked on waypoint 0 reporting the task-free position
`(0.55, 0)` goes Lost on the first update, but re-acquires waypoint 1 on
the second identical update: applying the same state twice does not
yield the same `(tracking_state, tracking_index)` as applying it once. -/
theorem tracking_not_idempotent_cex :
    (update_state twinRobot twinState 1).map trackPair =
      some (TrackingState.lost, 0) ∧
    ((update_state twinRobot twinState 1).bind fun r1 =>
        update_state r1 twinState 2).map trackPair =
      some (TrackingState.onWaypoint, 1) ∧
    ((update_state twinRobot twinState 1).bind fun r1 =>
        update_state r1 twinState 2).map trackPair ≠
      (update_state twinRobot twinState 1).map trackPair := by
  have h1 : update_state twinRobot twinState 1 = some twinLost := by
    norm_num [update_state, track_and_update, track_without_task_id,
      twinRobot, twinLost, twinState, mkState, baseRobot, twinGraph,
      is_near_waypoint, sqDist, dist_threshold, Graph.wpLoc, crossGraph]
  have h2 : (update_state twinLost twinState 2).map trackPair =
      some (TrackingState.onWaypoint, 1) := by
    norm_num [update_state, track_and_update, track_without_task_id,
      twinLost, twinRobot, twinState, mkState, baseRobot, twinGraph,
      find_nearest_waypoint, nearestFrom, is_near_waypoint, sqDist,
      dist_threshold, Graph.wpLoc, trackPair, crossGraph]
  have hc1 : (update_state twinRobot twinState 1).map trackPair =
      some (TrackingState.lost, 0) := by
    rw [h1]; rfl
  have hc2 : ((update_state twinRobot twinState 1).bind fun r1 =>
      update_state r1 twinState 2).map trackPair =
        some (TrackingState.onWaypoint, 1) := by
    rw [h1]
    simpa using h2
  exact ⟨hc1, hc2, by rw [hc1, hc2]; simp⟩

/-- Result of one (and of two) stationary updates in the C8 witness. -/
def idemRobot1 : RobotInfo := { baseRobot with last_updated := 1 }

/-- Result of the second stationary update in the C8 witness. -/
def idemRobot2 : RobotInfo := { baseRobot with last_updated := 2 }

/-- Witness for C8 at a concrete input: the robot parked on waypoint 0
reporting the origin twice keeps the same tracking pair. -/
theorem tracking_idempotent_witness :
    trackPair idemRobot2 = trackPair idemRobot1 := by
  have h1 : update_state baseRobot (mkState 0 ⟨0, 0⟩ none) 1 =
      some idemRobot1 := by
    norm_num [update_state, track_and_update, track_without_task_id,
      baseRobot, idemRobot1, mkState, crossGraph, is_near_waypoint,
      sqDist, dist_threshold, Graph.wpLoc]
  have h2 : update_state idemRobot1 (mkState 0 ⟨0, 0⟩ none) 2 =
      some idemRobot2 := by
    norm_num [update_state, track_and_update, track_without_task_id,
      baseRobot, idemRobot1, idemRobot2, mkState, crossGraph,
      is_near_waypoint, sqDist, dist_threshold, Graph.wpLoc]
  exact tracking_idempotent_unless_reacquired baseRobot idemRobot1 idemRobot2
    (mkState 0 ⟨0, 0⟩ none) 1 2 h1 h2
    (by
      norm_num [idemRobot1, baseRobot]
      intro _ h
      simp at h)

/-!
### C9 — characterization of the nearest-lane search
-/

/-- A lane index the nearest-lane scan can return: in range,
longitudinally containing the query point, and with a nonzero
homogeneous line coefficient (otherwise the source's normalisation
divides by zero and the NaN distance never enters the minimisation). -/
def laneCandidate (g : Graph) (p : Vec2) (i : Nat) : Prop :=
  i < g.lanes.length ∧ is_within_lane g (g.laneAt i) p = true ∧
    (lineCoef g (g.laneAt i)).2.2 ≠ 0

/-- Squared perpendicular distance of lane `i`, as the scan computes
it. -/
def laneSq (g : Graph) (p : Vec2) (i : Nat) : ℚ :=
  (perpSqDist g (g.laneAt i) p).getD 0

/-- The NaN marker appears exactly on the zero homogeneous
coefficient. -/
theorem perpSqDist_none_iff (g : Graph) (l : Lane) (p : Vec2) :
    perpSqDist g l p = none ↔ (lineCoef g l).2.2 = 0 := by
  unfold perpSqDist
  dsimp only
  split <;> simp_all

/-- Invariant of the nearest-lane scan over all lane indices below
`bound`: an empty accumulator means no candidate yet; a filled one holds
the first index attaining the minimum candidate distance. -/
def LaneInv (g : Graph) (p : Vec2) (bound : Nat) (acc : Option (Nat × ℚ)) : Prop :=
  (acc = none → ∀ j, j < bound → ¬ laneCandidate g p j) ∧
  ∀ i d, acc = some (i, d) →
    i < bound ∧ laneCandidate g p i ∧ perpSqDist g (g.laneAt i) p = some d ∧
      (∀ j, j < bound → laneCandidate g p j → d ≤ laneSq g p j) ∧
      (∀ j, j < bound → laneCandidate g p j → j < i → d < laneSq g p j)

/-- The scan preserves `LaneInv` over the indices it visits. -/
theorem nearestLaneFrom_inv (g : Graph) (p : Vec2) :
    ∀ (ls : List Lane) (i0 : Nat) (best : Option (Nat × ℚ)),
      (∀ k (hk : k < ls.length), ls.get ⟨k, hk⟩ = g.laneAt (i0 + k)) →
      i0 + ls.length ≤ g.lanes.length →
      LaneInv g p i0 best →
      LaneInv g p (i0 + ls.length) (nearestLaneFrom g p i0 ls best) := by
  intro ls
  induction ls with
  | nil =>
    intro i0 best _ _ hinv
    simpa [nearestLaneFrom] using hinv
  | cons l rest ih =>
    intro i0 best hls hlen hinv
    have hl : l = g.laneAt i0 := by simpa using hls 0 (by simp)
    have hls2 : ∀ k (hk : k < rest.length),
        rest.get ⟨k, hk⟩ = g.laneAt (i0 + 1 + k) := by
      intro k hk
      have := hls (k + 1) (by simpa using Nat.succ_lt_succ hk)
      simpa [Nat.add_assoc, Nat.add_comm 1 k, Nat.add_left_comm] using this
    have hlen2 : i0 + 1 + rest.length ≤ g.lanes.length := by
      simp only [List.length_cons] at hlen
      omega
    have hi0 : i0 < g.lanes.length := by
      simp only [List.length_cons] at hlen
      omega
    have harith : i0 + (l :: rest).length = i0 + 1 + rest.length := by
      simp only [List.length_cons]
      omega
    rw [harith]
    by_cases hwn : is_within_lane g l p = true
    · cases hperp : perpSqDist g l p with
      | none =>
        have hnc : ¬ laneCandidate g p i0 := by
          intro hcand
          exact hcand.2.2 ((perpSqDist_none_iff g l p).mp hperp ▸ by rw [← hl])
        have hbump : LaneInv g p (i0 + 1) best := by
          refine ⟨fun hn j hj => ?_, fun i d hs => ?_⟩
          · rcases Nat.lt_succ_iff_lt_or_eq.mp hj with hj2 | hj2
            · exact hinv.1 hn j hj2
            · rw [hj2]; exact hnc
          · obtain ⟨hib, hc, hp2, hmin, hstr⟩ := hinv.2 i d hs
            refine ⟨Nat.lt_succ_of_lt hib, hc, hp2, fun j hj hcj => ?_,
              fun j hj hcj hji => ?_⟩
            · rcases Nat.lt_succ_iff_lt_or_eq.mp hj with hj2 | hj2
              · exact hmin j hj2 hcj
              · rw [hj2] at hcj; exact absurd hcj hnc
            · rcases Nat.lt_succ_iff_lt_or_eq.mp hj with hj2 | hj2
              · exact hstr j hj2 hcj hji
              · rw [hj2] at hcj; exact absurd hcj hnc
        have := ih (i0 + 1) best hls2 hlen2 hbump
        simpa [nearestLaneFrom, hwn, hperp] using this
      | some sd =>
        have hcand : laneCandidate g p i0 := by
          refine ⟨hi0, by rw [← hl]; exact hwn, ?_⟩
          intro hzero
          have := (perpSqDist_none_iff g (g.laneAt i0) p).mpr hzero
          rw [← hl] at this
          rw [this] at hperp
          exact absurd hperp (by simp)
        have hperp0 : perpSqDist g (g.laneAt i0) p = some sd := by
          rw [← hl]; exact hperp
        have hsq0 : laneSq g p i0 = sd := by
          simp [laneSq, hperp0]
        cases hbb : best with
        | none =>
          have hnoc := hinv.1 hbb
          have hbump : LaneInv g p (i0 + 1) (some (i0, sd)) := by
            refine ⟨fun hn => absurd hn (by simp), fun i d hs => ?_⟩
            simp only [Option.some.injEq, Prod.mk.injEq] at hs
            obtain ⟨hi, hd⟩ := hs
            subst hi; subst hd
            refine ⟨Nat.lt_succ_self _, hcand, hperp0, fun j hj hcj => ?_,
              fun j hj hcj hji => ?_⟩
            · rcases Nat.lt_succ_iff_lt_or_eq.mp hj with hj2 | hj2
              · exact absurd hcj (hnoc j hj2)
              · rw [hj2, hsq0]
            · rcases Nat.lt_succ_iff_lt_or_eq.mp hj with hj2 | hj2
              · exact absurd hcj (hnoc j hj2)
              · omega
          have := ih (i0 + 1) (some (i0, sd)) hls2 hlen2 hbump
          simpa [nearestLaneFrom, hwn, hperp, hbb] using this
        | some jb =>
          obtain ⟨j0, bd⟩ := jb
          obtain ⟨hj0b, hcj0, hpj0, hminj0, hstrj0⟩ := hinv.2 j0 bd hbb
          by_cases hlt : sd < bd
          · have hbump : LaneInv g p (i0 + 1) (some (i0, sd)) := by
              refine ⟨fun hn => absurd hn (by simp), fun i d hs => ?_⟩
              simp only [Option.some.injEq, Prod.mk.injEq] at hs
              obtain ⟨hi, hd⟩ := hs
              subst hi; subst hd
              refine ⟨Nat.lt_succ_self _, hcand, hperp0, fun j hj hcj => ?_,
                fun j hj hcj hji => ?_⟩
              · rcases Nat.lt_succ_iff_lt_or_eq.mp hj with hj2 | hj2
                · exact le_of_lt (lt_of_lt_of_le hlt (hminj0 j hj2 hcj))
                · rw [hj2, hsq0]
              · rcases Nat.lt_succ_iff_lt_or_eq.mp hj with hj2 | hj2
                · exact lt_of_lt_of_le hlt (hminj0 j hj2 hcj)
                · omega
            have := ih (i0 + 1) (some (i0, sd)) hls2 hlen2 hbump
            simpa [nearestLaneFrom, hwn, hperp, hbb, hlt] using this
          · have hbump : LaneInv g p (i0 + 1) (some (j0, bd)) := by
              refine ⟨fun hn => absurd hn (by simp), fun i d hs => ?_⟩
              simp only [Option.some.injEq, Prod.mk.injEq] at hs
              obtain ⟨hi, hd⟩ := hs
              subst hi; subst hd
              refine ⟨Nat.lt_succ_of_lt hj0b, hcj0, hpj0, fun j hj hcj => ?_,
                fun j hj hcj hji => ?_⟩
              · rcases Nat.lt_succ_iff_lt_or_eq.mp hj with hj2 | hj2
                · exact hminj0 j hj2 hcj
                · rw [hj2, hsq0]; exact le_of_not_lt hlt
              · rcases Nat.lt_succ_iff_lt_or_eq.mp hj with hj2 | hj2
                · exact hstrj0 j hj2 hcj hji
                · omega
            have := ih (i0 + 1) (some (j0, bd)) hls2 hlen2 hbump
            simpa [nearestLaneFrom, hwn, hperp, hbb, hlt] using this
    · have hnc : ¬ laneCandidate g p i0 := by
        intro hcand
        exact hwn (by rw [hl]; exact hcand.2.1)
      have hbump : LaneInv g p (i0 + 1) best := by
        refine ⟨fun hn j hj => ?_, fun i d hs => ?_⟩
        · rcases Nat.lt_succ_iff_lt_or_eq.mp hj with hj2 | hj2
          · exact hinv.1 hn j hj2
          · rw [hj2]; exact hnc
        · obtain ⟨hib, hc, hp2, hmin, hstr⟩ := hinv.2 i d hs
          refine ⟨Nat.lt_succ_of_lt hib, hc, hp2, fun j hj hcj => ?_,
            fun j hj hcj hji => ?_⟩
          · rcases Nat.lt_succ_iff_lt_or_eq.mp hj with hj2 | hj2
            · exact hmin j hj2 hcj
            · rw [hj2] at hcj; exact absurd hcj hnc
          · rcases Nat.lt_succ_iff_lt_or_eq.mp hj with hj2 | hj2
            · exact hstr j hj2 hcj hji
            · rw [hj2] at hcj; exact absurd hcj hnc
      have := ih (i0 + 1) best hls2 hlen2 hbump
      simpa [nearestLaneFrom, hwn] using this

/-- The invariant instantiated at the whole lane list. -/
theorem find_nearest_lane_inv (g : Graph) (p : Vec2) :
    LaneInv g p g.lanes.length (find_nearest_lane g p) := by
  have h := nearestLaneFrom_inv g p g.lanes 0 none ?_ (by simp) ?_
  · simpa [find_nearest_lane] using h
  · intro k hk
    simp [Graph.laneAt, List.getD_eq_getElem?_getD, List.getElem?_eq_getElem hk]
  · exact ⟨fun _ j hj => absurd hj (by omega), fun i d hs => absurd hs (by simp)⟩

/-- C9 (amended): the nearest-lane search considers exactly the lanes
that longitudinally contain the query point AND whose homogeneous line
coefficient is nonzero (a lane whose supporting line passes through the
origin is skipped, its computed distance being NaN); among those it
returns the lane minimising the squared perpendicular distance, ties
going to the smallest index, and it returns none when no such candidate
exists.  For every lane with nonzero homogeneous coefficient the
computed distance agrees with the unnormalised formula
`(a x + b y + c)^2 / (a^2 + b^2)`, the square of the claim's
`|ax + by + c| / sqrt(a^2 + b^2)`. -/
theorem nearest_lane_characterization :
    (∀ (g : Graph) (l : Lane) (p : Vec2) (a b c : ℚ),
      lineCoef g l = (a, b, c) → c ≠ 0 →
        perpSqDist g l p =
          some ((a * p.x + b * p.y + c) ^ 2 / (a ^ 2 + b ^ 2))) ∧
    ∀ (g : Graph) (p : Vec2),
      (find_nearest_lane g p = none ↔ ∀ j, ¬ laneCandidate g p j) ∧
      ∀ i d, find_nearest_lane g p = some (i, d) →
        laneCandidate g p i ∧ perpSqDist g (g.laneAt i) p = some d ∧
          (∀ j, laneCandidate g p j → d ≤ laneSq g p j) ∧
          ∀ j, laneCandidate g p j → j < i → d < laneSq g p j := by
  constructor
  · intro g l p a b c hco hc
    unfold perpSqDist
    rw [hco]
    dsimp only
    rw [if_neg hc]
    have e1 : a / c * p.x + b / c * p.y + 1 = (a * p.x + b * p.y + c) / c := by
      field_simp
    have e2 : (a / c) ^ 2 + (b / c) ^ 2 = (a ^ 2 + b ^ 2) / c ^ 2 := by
      field_simp
    rw [e1, e2, div_pow]
    rcases eq_or_ne (a ^ 2 + b ^ 2) 0 with hY | hY
    · simp [hY]
    · congr 1
      field_simp
  · intro g p
    have hinv := find_nearest_lane_inv g p
    refine ⟨⟨fun hnone j => ?_, fun hall => ?_⟩, fun i d hres => ?_⟩
    · by_cases hj : j < g.lanes.length
      · exact hinv.1 hnone j hj
      · intro hcand; exact hj hcand.1
    · cases hres : find_nearest_lane g p with
      | none => rfl
      | some id2 =>
        obtain ⟨i, d⟩ := id2
        exact absurd (hinv.2 i d hres).2.1 (hall i)
    · obtain ⟨hib, hcand, hperp, hmin, hstrict⟩ := hinv.2 i d hres
      exact ⟨hcand, hperp, fun j hj => hmin j hj.1 hj,
        fun j hj hji => hstrict j hj.1 hj hji⟩

/-- C9 counterexample: the single lane of `originLaneGraph`
longitudinally contains `(2, 0.1)`, yet `find_nearest_lane` returns
none, because the lane's supporting line (the x-axis) passes through the
origin: its homogeneous coefficient is zero, the source divides by it,
and the NaN distance never beats the running minimum. -/
theorem origin_lane_skipped_cex :
    find_nearest_lane originLaneGraph ⟨2, 1 / 10⟩ = none ∧
      is_within_lane originLaneGraph (originLaneGraph.laneAt 0)
        ⟨2, 1 / 10⟩ = true := by
  constructor
  · norm_num [find_nearest_lane, nearestLaneFrom, originLaneGraph,
      is_within_lane, perpSqDist, lineCoef, Graph.wpLoc, Graph.laneAt, sqDist]
  · norm_num [is_within_lane, originLaneGraph, Graph.wpLoc, Graph.laneAt,
      sqDist]

/-- Witness for C9 at a concrete input: on `offsetLaneGraph` (supporting
line `x = 1`, homogeneous coefficient 2), the formula from the first
conjunct evaluates the squared perpendicular distance from the origin to
1, and the characterization applies to the lane the search returns. -/
theorem nearest_lane_characterization_witness :
    perpSqDist offsetLaneGraph (offsetLaneGraph.laneAt 0) ⟨0, 0⟩ = some 1 ∧
      laneCandidate offsetLaneGraph ⟨0, 0⟩ 0 := by
  have hform := nearest_lane_characterization.1 offsetLaneGraph
    (offsetLaneGraph.laneAt 0) ⟨0, 0⟩ (-2) 0 2
    (by norm_num [lineCoef, offsetLaneGraph, Graph.wpLoc, Graph.laneAt])
    (by norm_num)
  have hfind : find_nearest_lane offsetLaneGraph ⟨0, 0⟩ = some (0, 1) := by
    norm_num [find_nearest_lane, nearestLaneFrom, offsetLaneGraph,
      is_within_lane, perpSqDist, lineCoef, Graph.wpLoc, Graph.laneAt, sqDist]
  have hchar := (nearest_lane_characterization.2 offsetLaneGraph ⟨0, 0⟩).2 0 1
    hfind
  refine ⟨?_, hchar.1⟩
  rw [hform]
  norm_num

/-!
### C10 — the stored state is always present
-/

/-- C10: the stored last-observed state is present as soon as
construction succeeds and remains present after every successful
`update_state`, so the `state()` accessor (which dereferences the
optional) never observes an empty optional on a constructed RobotInfo. -/
theorem state_accessor_always_some (s0 : RobotState) (g : Graph) (t0 : ℤ)
    (us : List (RobotState × ℤ)) (r0 r : RobotInfo)
    (hmk : RobotInfo.make s0 g t0 = some r0)
    (hrun : runUpdates r0 us = some r) :
    r.state.isSome = true := by
  unfold RobotInfo.make at hmk
  have h0 : r0.state.isSome = true := by
    rw [track_and_update_state_eq _ s0 r0 hmk]
    rfl
  clear hmk
  induction us generalizing r0 with
  | nil =>
    simp only [runUpdates, Option.some.injEq] at hrun
    subst hrun
    exact h0
  | cons u rest ih =>
    obtain ⟨s1, t1⟩ := u
    simp only [runUpdates] at hrun
    split at hrun
    · exact absurd hrun (by simp)
    · rename_i r1 hstep
      refine ih r1 hrun ?_
      unfold update_state at hstep
      split at hstep
      · simp only [Option.some.injEq] at hstep
        subst hstep
        exact h0
      · split at hstep
        · exact absurd hstep (by simp)
        · rename_i r1p htr
          simp only [Option.some.injEq] at hstep
          subst hstep
          show r1p.state.isSome = true
          rw [track_and_update_state_eq _ s1 r1p htr]
          rfl

/-- Witness for C10: the freshly constructed `baseRobot` carries a
stored state. -/
theorem state_accessor_always_some_witness :
    baseRobot.state.isSome = true := by
  have hmk : RobotInfo.make (mkState 0 ⟨0, 0⟩ none) crossGraph 0 =
      some baseRobot := by
    norm_num [RobotInfo.make, track_and_update, track_without_task_id,
      initial_tracking_state, mkState, baseRobot, crossGraph,
      find_nearest_waypoint, nearestFrom, sqDist, dist_threshold]
  exact state_accessor_always_some (mkState 0 ⟨0, 0⟩ none) crossGraph 0 []
    baseRobot baseRobot hmk rfl

end FreeFleet
